import Mathlib

/- Shallow embedding of the detection-to-field extraction and normalization
   pipeline of the aadhar_extraction_model repository (src/app/utils.py,
   src/app/processing.py, src/app/main.py).  Python strings are modelled as
   lists of Unicode code points (`Nat`); a Python `None` return of an
   `Optional[str]` is `Option.none`.  Character-class predicates model Python's
   regex classes on the ASCII range, which covers every character occurring in
   the pipeline's patterns and literals. -/

/-- A Python string: the list of its characters' Unicode code points. -/
abbrev PyStr := List Nat

/-- Encode a Lean string literal as the Python string it denotes. -/
def str (s : String) : PyStr := s.toList.map Char.toNat

/-- Python regex class `\d` (ASCII range): a decimal digit `0`-`9`. -/
def isDigitCh (c : Nat) : Bool := decide (48 ≤ c ∧ c ≤ 57)

/-- Python regex class `[a-zA-Z]`: a Latin letter. -/
def isAlphaCh (c : Nat) : Bool := decide ((65 ≤ c ∧ c ≤ 90) ∨ (97 ≤ c ∧ c ≤ 122))

/-- Python regex class `\s` and `str.strip()` whitespace (ASCII range):
space, tab, newline, vertical tab, form feed, carriage return. -/
def isSpaceCh (c : Nat) : Bool := decide (c = 32 ∨ c = 9 ∨ c = 10 ∨ c = 11 ∨ c = 12 ∨ c = 13)

/-- Python `str.lower()` on a single character (ASCII range). -/
def toLowerCh (c : Nat) : Nat := if 65 ≤ c ∧ c ≤ 90 then c + 32 else c

/-- Python `str.upper()` on a single character (ASCII range). -/
def toUpperCh (c : Nat) : Nat := if 97 ≤ c ∧ c ≤ 122 then c - 32 else c

/-- Python `str.strip()`: drop leading and trailing whitespace. -/
def pyStrip (s : PyStr) : PyStr :=
  ((s.dropWhile isSpaceCh).reverse.dropWhile isSpaceCh).reverse

/-- Whether the string begins with the given pattern (Python `str.startswith`). -/
def startsWithStr : PyStr → PyStr → Bool
  | [], _ => true
  | _ :: _, [] => false
  | a :: p, b :: s => a == b && startsWithStr p s

/-- Python substring containment `p in s`. -/
def occursIn (p : PyStr) : PyStr → Bool
  | [] => startsWithStr p []
  | c :: t => startsWithStr p (c :: t) || occursIn p t

/-- The 4-4-4 grouping `f"{digits[0:4]} {digits[4:8]} {digits[8:12]}"` used by
`clean_aadhaar_number` (src/app/utils.py lines 204 and 208); code point 32 is
the space. -/
def fmtAadhaar (d : PyStr) : PyStr :=
  d.take 4 ++ 32 :: ((d.drop 4).take 4 ++ 32 :: (d.drop 8).take 4)

/-- `clean_aadhaar_number` (src/app/utils.py lines 188-210): strip non-digits;
group when exactly 12 digits remain; truncate to 12 then group when more
remain; otherwise return the argument `text` unchanged. -/
def clean_aadhaar_number (text : PyStr) : PyStr :=
  let digits := text.filter isDigitCh
  if digits.length = 12 then fmtAadhaar digits
  else if digits.length > 12 then fmtAadhaar (digits.take 12)
  else text

/-- Date separator class `[slash hyphen]` of the patterns in `clean_date`. -/
def isSepCh (c : Nat) : Bool := c == 47 || c == 45

/-- The character class kept by `re.sub(r'[^0-9/\-]', '', text)` in
`clean_date` (src/app/utils.py line 227). -/
def isDateCh (c : Nat) : Bool := isDigitCh c || isSepCh c

/-- Match of the regex `(\d{2})[slash hyphen](\d{2})[slash hyphen](\d{4})` anchored at the head of
the string, returning the matched text (group 0). -/
def matchFullAt : PyStr → Option PyStr
  | a :: b :: s1 :: c :: d :: s2 :: e :: f :: g :: h :: _ =>
    if isDigitCh a && isDigitCh b && isSepCh s1 && isDigitCh c && isDigitCh d &&
        isSepCh s2 && isDigitCh e && isDigitCh f && isDigitCh g && isDigitCh h then
      some [a, b, s1, c, d, s2, e, f, g, h]
    else none
  | _ => none

/-- Match of the regex `(\d{2})[slash hyphen](\d{2})[slash hyphen](\d{2})` anchored at the head. -/
def matchShortAt : PyStr → Option PyStr
  | a :: b :: s1 :: c :: d :: s2 :: e :: f :: _ =>
    if isDigitCh a && isDigitCh b && isSepCh s1 && isDigitCh c && isDigitCh d &&
        isSepCh s2 && isDigitCh e && isDigitCh f then
      some [a, b, s1, c, d, s2, e, f]
    else none
  | _ => none

/-- Match of the regex `(\d{4})` anchored at the head. -/
def matchYearAt : PyStr → Option PyStr
  | a :: b :: c :: d :: _ =>
    if isDigitCh a && isDigitCh b && isDigitCh c && isDigitCh d then
      some [a, b, c, d]
    else none
  | _ => none

/-- Python `re.search` for a fixed-shape pattern: try the anchored matcher at
every position, leftmost position first. -/
def reSearch (m : PyStr → Option PyStr) : PyStr → Option PyStr
  | [] => m []
  | c :: t =>
    match m (c :: t) with
    | some r => some r
    | none => reSearch m t

/-- `matched_text.replace('-', '/')` (src/app/utils.py line 239): code point
45 is `-`, 47 is `/`. -/
def slashify (s : PyStr) : PyStr := s.map fun c => if c == 45 then 47 else c

/-- `clean_date` (src/app/utils.py lines 213-247): empty input gives `None`;
otherwise keep only digits, `/` and `-`, search the three date patterns in
order, normalize separators of a match to `/`, and fall back to the cleaned
string (or `None` when it is empty). -/
def clean_date (text : PyStr) : Option PyStr :=
  if text = [] then none
  else
    let t := text.filter isDateCh
    match reSearch matchFullAt t with
    | some m => some (slashify m)
    | none =>
      match reSearch matchShortAt t with
      | some m => some (slashify m)
      | none =>
        match reSearch matchYearAt t with
        | some m => some (slashify m)
        | none => if t = [] then none else some t

/-- The character class kept by `re.sub(r'[^a-zA-Z\s\'\-\.]', '', text)` in
`clean_name` (src/app/utils.py line 262): letters, whitespace, apostrophe
(39), hyphen (45), period (46). -/
def nameFilter (c : Nat) : Bool :=
  isAlphaCh c || isSpaceCh c || c == 39 || c == 45 || c == 46

/-- Worker for Python `str.split()` with no separator: `cur` is the current
token accumulated in reverse. -/
def splitAux (cur : PyStr) : PyStr → List PyStr
  | [] => if cur = [] then [] else [cur.reverse]
  | c :: t =>
    if isSpaceCh c then
      if cur = [] then splitAux [] t else cur.reverse :: splitAux [] t
    else splitAux (c :: cur) t

/-- Python `str.split()` with no separator: split on whitespace runs,
dropping empty tokens. -/
def pySplit (s : PyStr) : List PyStr := splitAux [] s

/-- Python `' '.join(tokens)`. -/
def joinSp (ts : List PyStr) : PyStr := List.intercalate [32] ts

/-- Python `str.rstrip(".,'-")` as used in `clean_name` (src/app/utils.py
line 268): drop trailing period (46), comma (44), apostrophe (39), hyphen
(45). -/
def rstripPunct (s : PyStr) : PyStr :=
  (s.reverse.dropWhile fun c => c == 46 || c == 44 || c == 39 || c == 45).reverse

/-- Worker for Python `str.title()`: `prev` records whether the previous
character was cased (a letter); a letter after a non-letter is uppercased,
a letter after a letter is lowercased. -/
def titleAux (prev : Bool) : PyStr → PyStr
  | [] => []
  | c :: t =>
    (if isAlphaCh c then (if prev then toLowerCh c else toUpperCh c) else c) ::
      titleAux (isAlphaCh c) t

/-- Python `str.title()`. -/
def pyTitle (s : PyStr) : PyStr := titleAux false s

/-- `clean_name` (src/app/utils.py lines 250-273): filter the kept character
class, collapse whitespace via `' '.join(text.split())`, strip trailing
punctuation, then apply `str.title()`. -/
def clean_name (text : PyStr) : PyStr :=
  pyTitle (rstripPunct (joinSp (pySplit (text.filter nameFilter))))

/-- The cleaning prefix of `clean_gender` (src/app/utils.py lines 287-288):
`re.sub(r'[^a-zA-Z\s]', '', text)` then `.strip().lower()`. -/
def genderClean (text : PyStr) : PyStr :=
  (pyStrip (text.filter fun c => isAlphaCh c || isSpaceCh c)).map toLowerCh

/-- `clean_gender` (src/app/utils.py lines 276-300): clean, then test the
branches in source order; a non-empty unmatched text passes through, an empty
one gives `None`. -/
def clean_gender (text : PyStr) : Option PyStr :=
  let t := genderClean text
  if occursIn (str "male") t && !occursIn (str "female") t then some (str "Male")
  else if occursIn (str "female") t || occursIn (str "femal") t then some (str "Female")
  else if t = str "m" ∨ t = str "man" then some (str "Male")
  else if t = str "f" ∨ t = str "woman" then some (str "Female")
  else if t ≠ [] then some t else none

/-- One pass of `re.sub(r'\s+', ' ', text)`: each maximal whitespace run
becomes a single space; `inRun` records whether the previous character was
whitespace. -/
def collapseAux (inRun : Bool) : PyStr → PyStr
  | [] => []
  | c :: t =>
    if isSpaceCh c then
      if inRun then collapseAux true t else 32 :: collapseAux true t
    else c :: collapseAux false t

/-- `extract_text_from_region` (src/app/utils.py lines 117-169).  The image
enters only through its height `h` and width `w`; the OCR collaborator enters
as an oracle `ocr` that either raises (`Except.error`) or returns raw text for
the clamped region.  The crop `image[y1:y2, x1:x2]` after clamping has zero
size exactly when a clamped side length is not positive; the source then
returns the empty string `""` (`some []`), as it also does when the OCR call
raises; OCR text is whitespace-collapsed and stripped, and an empty cleaned
text gives `None`. -/
def extract_text_from_region (h w : Nat) (x1 y1 x2 y2 : Int)
    (ocr : Except Unit PyStr) : Option PyStr :=
  let x1c := max 0 x1
  let y1c := max 0 y1
  let x2c := min (w : Int) x2
  let y2c := min (h : Int) y2
  if y2c - y1c ≤ 0 ∨ x2c - x1c ≤ 0 then some []
  else
    match ocr with
    | Except.error _ => some []
    | Except.ok raw =>
      let text := pyStrip (collapseAux false raw)
      if text = [] then none else some text

/-- Python dict assignment `d[k] = v` on an association list: update in place
when the key is present, append otherwise. -/
def dictSet {α : Type} (d : List (String × α)) (k : String) (v : α) :
    List (String × α) :=
  if d.any fun p => p.1 == k then d.map fun p => if p.1 == k then (k, v) else p
  else d ++ [(k, v)]

/-- Python dict lookup `d.get(k)` on an association list. -/
def dictGet {α : Type} (d : List (String × α)) (k : String) : Option α :=
  (d.find? fun p => p.1 == k).map Prod.snd

/-- The initial `processed` dict of `postprocess_extracted_data`
(src/app/utils.py lines 314-319): all four keys mapped to `None`. -/
def emptyFieldMap : List (String × Option PyStr) :=
  [("AADHAR_NUMBER", none), ("NAME", none), ("DOB", none), ("GENDER", none)]

/-- The loop body of `postprocess_extracted_data` (src/app/utils.py lines
321-332): skip falsy values, then dispatch on the key to the field's
normalizer; keys outside the four are ignored. -/
def postStep (processed : List (String × Option PyStr)) (kv : String × PyStr) :
    List (String × Option PyStr) :=
  if kv.2 = [] then processed
  else if kv.1 == "AADHAR_NUMBER" then
    dictSet processed kv.1 (some (clean_aadhaar_number kv.2))
  else if kv.1 == "DOB" then dictSet processed kv.1 (clean_date kv.2)
  else if kv.1 == "GENDER" then dictSet processed kv.1 (clean_gender kv.2)
  else if kv.1 == "NAME" then dictSet processed kv.1 (some (clean_name kv.2))
  else processed

/-- `postprocess_extracted_data` (src/app/utils.py lines 303-334): start from
the fully-keyed all-`None` map, then run the loop body over the items. -/
def postprocess_extracted_data (data : List (String × PyStr)) :
    List (String × Option PyStr) :=
  data.foldl postStep emptyFieldMap

/-- A detection as consumed by the extraction loop of the `/extract` endpoint:
its label and the value `extract_text_from_region` produced for its box
(`none` for Python `None`, `some []` for the empty string). -/
structure Det where
  label : String
  text : Option PyStr

/-- `REQUIRED_FIELDS` (src/app/main.py line 231). -/
def REQUIRED_FIELDS : List String :=
  ["AADHAR_NUMBER", "NAME", "DATE_OF_BIRTH", "GENDER"]

/-- The output-key mapping of src/app/main.py line 268: `DATE_OF_BIRTH` is
surfaced as `DOB`, every other label keeps its name. -/
def fieldName (label : String) : String :=
  if label == "DATE_OF_BIRTH" then "DOB" else label

/-- Python truthiness of an `Optional[str]`: `None` and `""` are falsy. -/
def textTruthy : Option PyStr → Bool
  | none => false
  | some t => !t.isEmpty

/-- One iteration of the detection loop of the `/extract` endpoint
(src/app/main.py lines 240-269): skip labels outside `REQUIRED_FIELDS`, then
`if text: extracted_data[field_name] = text` with dict-overwrite semantics. -/
def buildStep (acc : List (String × PyStr)) (d : Det) : List (String × PyStr) :=
  if REQUIRED_FIELDS.contains d.label then
    match d.text with
    | some t => if t.isEmpty then acc else dictSet acc (fieldName d.label) t
    | none => acc
  else acc

/-- The detection loop of the `/extract` endpoint (src/app/main.py lines
240-269) restricted to the construction of `extracted_data`. -/
def buildExtractedData (dets : List Det) : List (String × PyStr) :=
  dets.foldl buildStep []

/-- The data pipeline of the orchestrator `extract_aadhaar_data`
(src/app/main.py lines 231-288): build `extracted_data` from the detections,
then post-process it into the canonical field map. -/
def extract_aadhaar_data (dets : List Det) : List (String × Option PyStr) :=
  postprocess_extracted_data (buildExtractedData dets)

/-- The inline AADHAR_NUMBER formatting block of
`processing.extract_aadhaar_data` (src/app/processing.py lines 86-99): group
when exactly 12 digits remain, otherwise keep the digit string, or `None`
when no digit remains. -/
def processing_aadhaar_format (t : PyStr) : Option PyStr :=
  let digits_only := t.filter isDigitCh
  if digits_only.length = 12 then some (fmtAadhaar digits_only)
  else if digits_only = [] then none
  else some digits_only

/-- Checker for the casing pattern produced by `str.title()`: scanning with
the flag `prev` (whether the previous character was a letter), every letter
that follows a non-letter is uppercase (65-90) and every letter that follows
a letter is lowercase (97-122). -/
def titledOK (prev : Bool) : PyStr → Bool
  | [] => true
  | c :: t =>
    (if isAlphaCh c then
       (if prev then decide (97 ≤ c ∧ c ≤ 122) else decide (65 ≤ c ∧ c ≤ 90))
     else true)
      && titledOK (isAlphaCh c) t

/-- The text of the last detection in the list whose label equals `label` and
whose extracted text is truthy — the value last-seen-wins retains. -/
def lastQual (label : String) (dets : List Det) : Option PyStr :=
  (dets.filterMap fun d =>
      if d.label == label && textTruthy d.text then d.text else none).getLast?

/- Helper lemmas about the embedded operations. -/

lemma filter_fmtAadhaar (d : PyStr) (hd : ∀ c ∈ d, isDigitCh c = true) :
    (fmtAadhaar d).filter isDigitCh = d.take 12 := by
  have h32 : isDigitCh 32 = false := by decide
  have hself : ∀ l : PyStr, List.Sublist l d → l.filter isDigitCh = l := by
    intro l hl
    exact List.filter_eq_self.mpr fun c hc => hd c (hl.mem hc)
  unfold fmtAadhaar
  rw [List.filter_append, List.filter_cons, List.filter_append, List.filter_cons]
  rw [h32]
  rw [hself _ ((List.take_sublist 4 d))]
  rw [hself _ ((List.take_sublist 4 _).trans (List.drop_sublist 4 d))]
  rw [hself _ ((List.take_sublist 4 _).trans (List.drop_sublist 8 d))]
  have h12 : (12 : Nat) = 8 + 4 := by omega
  have h8 : (8 : Nat) = 4 + 4 := by omega
  rw [h12, List.take_add, h8, List.take_add]
  simp [List.append_assoc]

lemma digits_of_filter (text : PyStr) : ∀ c ∈ text.filter isDigitCh, isDigitCh c = true :=
  fun _ hc => List.of_mem_filter hc

/-- C1 (corrected).  `clean_aadhaar_number` groups the digits 4-4-4 when
exactly 12 remain, truncates to the first 12 and groups when more remain
(in both cases altering or reordering no digit), and — contrary to the claim
— returns the original input string unchanged (non-digits included) when
fewer than 12 digits remain. -/
theorem clean_aadhaar_cases (text : PyStr) :
    ((text.filter isDigitCh).length = 12 →
      clean_aadhaar_number text = fmtAadhaar (text.filter isDigitCh) ∧
      (clean_aadhaar_number text).filter isDigitCh = text.filter isDigitCh) ∧
    ((text.filter isDigitCh).length > 12 →
      clean_aadhaar_number text = fmtAadhaar ((text.filter isDigitCh).take 12) ∧
      (clean_aadhaar_number text).filter isDigitCh = (text.filter isDigitCh).take 12) ∧
    ((text.filter isDigitCh).length < 12 → clean_aadhaar_number text = text) := by
  refine ⟨fun h => ?_, fun h => ?_, fun h => ?_⟩
  · have he : clean_aadhaar_number text = fmtAadhaar (text.filter isDigitCh) := by
      unfold clean_aadhaar_number
      rw [if_pos h]
    refine ⟨he, ?_⟩
    rw [he, filter_fmtAadhaar _ (digits_of_filter text), List.take_of_length_le (by omega)]
  · have he : clean_aadhaar_number text = fmtAadhaar ((text.filter isDigitCh).take 12) := by
      unfold clean_aadhaar_number
      rw [if_neg (by omega), if_pos h]
    refine ⟨he, ?_⟩
    rw [he, filter_fmtAadhaar _ (fun c hc =>
      digits_of_filter text c ((List.take_sublist 12 _).mem hc))]
    simp [List.take_take]
  · unfold clean_aadhaar_number
    rw [if_neg (by omega), if_neg (by omega)]

/-- Witness for `clean_aadhaar_cases`: each branch evaluated at a concrete
input. -/
theorem clean_aadhaar_cases_witness :
    clean_aadhaar_number (str "9988 7766 5544") =
      fmtAadhaar ((str "9988 7766 5544").filter isDigitCh) ∧
    clean_aadhaar_number (str "12345678901234") =
      fmtAadhaar (((str "12345678901234").filter isDigitCh).take 12) ∧
    clean_aadhaar_number (str "1a2") = str "1a2" :=
  ⟨((clean_aadhaar_cases (str "9988 7766 5544")).1 (by decide)).1,
   ((clean_aadhaar_cases (str "12345678901234")).2.1 (by decide)).1,
   (clean_aadhaar_cases (str "1a2")).2.2 (by decide)⟩

/-- C1 counterexample: `"1a2"` leaves the 2-digit string `"12"`, which is in
the claim's 1-to-11-digit range, yet `clean_aadhaar_number` returns the raw
input `"1a2"`, not the digit string `"12"` the claim requires. -/
theorem clean_aadhaar_short_counterexample :
    (str "1a2").filter isDigitCh = str "12" ∧
    ((str "1a2").filter isDigitCh).length = 2 ∧
    clean_aadhaar_number (str "1a2") = str "1a2" ∧
    clean_aadhaar_number (str "1a2") ≠ str "12" := by decide

/-- C8 (corrected).  The normalizers are total, but on an input with no
digits `clean_aadhaar_number` returns the input text itself (so `""` maps to
`""`, not `None`), and `clean_name` returns the empty string (not `None`)
when its cleaning steps empty the text; absent fields surface as `None` only
through `postprocess_extracted_data`, which skips falsy raw values. -/
theorem normalizers_empty_fallback (text : PyStr) :
    (text.filter isDigitCh = [] → clean_aadhaar_number text = text) ∧
    (rstripPunct (joinSp (pySplit (text.filter nameFilter))) = [] →
      clean_name text = []) := by
  constructor
  · intro h
    unfold clean_aadhaar_number
    rw [h]
    simp
  · intro h
    unfold clean_name
    rw [h]
    rfl

/-- Witness for `normalizers_empty_fallback` at concrete inputs. -/
theorem normalizers_empty_fallback_witness :
    clean_aadhaar_number (str "abc") = str "abc" ∧ clean_name (str " .,- ") = [] :=
  ⟨(normalizers_empty_fallback (str "abc")).1 (by decide),
   (normalizers_empty_fallback (str " .,- ")).2 (by decide)⟩

/-- C8 counterexample: `clean_aadhaar_number("")` is the empty string `""`
(a `str`, not `None`), and `clean_name` of a punctuation-only input is also
the empty string, contradicting the claim that these normalizers return
`None` in those situations. -/
theorem normalizers_empty_counterexample :
    clean_aadhaar_number (str "") = str "" ∧
    str "" = ([] : PyStr) ∧
    clean_name (str " .,- ") = ([] : PyStr) ∧
    (some (clean_aadhaar_number (str "")) : Option PyStr) ≠ none := by decide

/-- C10 (corrected).  The inline block of `processing.extract_aadhaar_data`
and `utils.clean_aadhaar_number` agree when exactly 12 digits remain, and on
nonempty all-digit inputs of fewer than 12 digits; with more than 12 digits
the inline block keeps the whole digit string ungrouped while the utils
normalizer truncates to 12 and groups; with no digits the inline block gives
`None` while the utils normalizer returns the raw text. -/
theorem dual_aadhaar_agreement (t : PyStr) :
    ((t.filter isDigitCh).length = 12 →
      processing_aadhaar_format t = some (clean_aadhaar_number t)) ∧
    (t.filter isDigitCh = t → t ≠ [] → (t.filter isDigitCh).length < 12 →
      processing_aadhaar_format t = some (clean_aadhaar_number t)) ∧
    ((t.filter isDigitCh).length > 12 →
      processing_aadhaar_format t = some (t.filter isDigitCh) ∧
      clean_aadhaar_number t = fmtAadhaar ((t.filter isDigitCh).take 12)) ∧
    (t.filter isDigitCh = [] → processing_aadhaar_format t = none) := by
  refine ⟨fun h => ?_, fun ha hne h => ?_, fun h => ?_, fun h => ?_⟩
  · unfold processing_aadhaar_format clean_aadhaar_number
    rw [if_pos h, if_pos h]
  · have hfe : t.filter isDigitCh ≠ [] := by
      rw [ha]
      exact hne
    have h1 : processing_aadhaar_format t = some t := by
      unfold processing_aadhaar_format
      rw [if_neg (by omega), if_neg hfe, ha]
    have h2 : clean_aadhaar_number t = t := by
      unfold clean_aadhaar_number
      rw [if_neg (by omega), if_neg (by omega)]
    rw [h1, h2]
  · unfold processing_aadhaar_format clean_aadhaar_number
    have hne : t.filter isDigitCh ≠ [] := by
      intro h0
      rw [h0] at h
      simp at h
    rw [if_neg (by omega), if_neg hne, if_neg (by omega), if_pos h]
    exact ⟨rfl, rfl⟩
  · unfold processing_aadhaar_format
    rw [h]
    simp

/-- Witness for `dual_aadhaar_agreement` at concrete inputs. -/
theorem dual_aadhaar_agreement_witness :
    processing_aadhaar_format (str "1111 2222 3333") =
      some (clean_aadhaar_number (str "1111 2222 3333")) ∧
    processing_aadhaar_format (str "12345") = some (clean_aadhaar_number (str "12345")) ∧
    processing_aadhaar_format (str "no digits") = none :=
  ⟨(dual_aadhaar_agreement (str "1111 2222 3333")).1 (by decide),
   (dual_aadhaar_agreement (str "12345")).2.1 (by decide) (by decide) (by decide),
   (dual_aadhaar_agreement (str "no digits")).2.2.2 (by decide)⟩

/-- C10 counterexample: on the 15-digit raw text `"123456789012999"` the
inline block of `processing.extract_aadhaar_data` keeps all 15 digits
ungrouped while `utils.clean_aadhaar_number` truncates to 12 and groups, so
the two implementations disagree. -/
theorem dual_aadhaar_counterexample :
    processing_aadhaar_format (str "123456789012999") = some (str "123456789012999") ∧
    clean_aadhaar_number (str "123456789012999") = str "1234 5678 9012" ∧
    some (clean_aadhaar_number (str "123456789012999")) ≠
      processing_aadhaar_format (str "123456789012999") := by decide

lemma isAlphaCh_toLowerCh (c : Nat) : isAlphaCh (toLowerCh c) = isAlphaCh c := by
  unfold isAlphaCh toLowerCh
  split <;> simp only [decide_eq_decide] <;> omega

lemma isAlphaCh_toUpperCh (c : Nat) : isAlphaCh (toUpperCh c) = isAlphaCh c := by
  unfold isAlphaCh toUpperCh
  split <;> simp only [decide_eq_decide] <;> omega

lemma toLowerCh_lower_range (c : Nat) (h : isAlphaCh c = true) :
    97 ≤ toLowerCh c ∧ toLowerCh c ≤ 122 := by
  unfold isAlphaCh at h
  rw [decide_eq_true_eq] at h
  unfold toLowerCh
  split <;> omega

lemma toUpperCh_upper_range (c : Nat) (h : isAlphaCh c = true) :
    65 ≤ toUpperCh c ∧ toUpperCh c ≤ 90 := by
  unfold isAlphaCh at h
  rw [decide_eq_true_eq] at h
  unfold toUpperCh
  split <;> omega

lemma titledOK_titleAux (l : PyStr) : ∀ prev, titledOK prev (titleAux prev l) = true := by
  induction l with
  | nil => intro prev; rfl
  | cons c t ih =>
    intro prev
    by_cases ha : isAlphaCh c = true
    · cases prev
      · simp only [titleAux, titledOK, ha, if_true, Bool.false_eq_true, if_false,
          isAlphaCh_toUpperCh, Bool.and_eq_true]
        refine ⟨?_, ih true⟩
        rw [decide_eq_true_eq]
        exact toUpperCh_upper_range c ha
      · simp only [titleAux, titledOK, ha, if_true, isAlphaCh_toLowerCh, Bool.and_eq_true]
        refine ⟨?_, ih true⟩
        rw [decide_eq_true_eq]
        exact toLowerCh_lower_range c ha
    · simp only [titleAux, titledOK, ha, Bool.false_eq_true, if_false, Bool.and_eq_true]
      exact ⟨trivial, ih false⟩

/-- C6 (corrected).  `clean_name` title-cases with Python `str.title()`
semantics: the first letter of every maximal run of letters is uppercased and
the rest of the run lowercased, so a letter directly after an apostrophe,
hyphen or period is also uppercased; in particular the claim's example input
yields `"John O'Brien"`, not `"John O'brien"`. -/
theorem clean_name_title_runs :
    (∀ text : PyStr, titledOK false (clean_name text) = true) ∧
    clean_name (str "  joHN   o'brien-- ") = str "John O'Brien" := by
  constructor
  · intro text
    unfold clean_name pyTitle
    exact titledOK_titleAux _ false
  · decide

/-- C6 counterexample: on the claim's own example input `clean_name` returns
`"John O'Brien"` (Python `str.title()` uppercases the letter after the
apostrophe), not `"John O'brien"` as the claim states. -/
theorem clean_name_title_counterexample :
    clean_name (str "  joHN   o'brien-- ") = str "John O'Brien" ∧
    str "John O'Brien" ≠ str "John O'brien" := by decide

lemma occursIn_nil (s : PyStr) : occursIn [] s = true := by
  induction s with
  | nil => rfl
  | cons c t ih => simp [occursIn, startsWithStr]

lemma startsWithStr_trans (x : PyStr) :
    ∀ y z : PyStr, startsWithStr x y = true → startsWithStr y z = true →
      startsWithStr x z = true := by
  induction x with
  | nil => intro y z _ _; rfl
  | cons a xt ih =>
    intro y z hxy hyz
    cases y with
    | nil => simp [startsWithStr] at hxy
    | cons b yt =>
      cases z with
      | nil => simp [startsWithStr] at hyz
      | cons c zt =>
        simp [startsWithStr] at hxy hyz ⊢
        exact ⟨hxy.1.trans hyz.1, ih _ _ hxy.2 hyz.2⟩

lemma occursIn_of_startsWith (m s : PyStr) (h : startsWithStr m s = true) :
    occursIn m s = true := by
  cases s with
  | nil => simpa [occursIn] using h
  | cons c t => simp [occursIn, h]

lemma startsWith_propagate (a : PyStr) :
    ∀ b s : PyStr, startsWithStr b s = true → occursIn a b = true →
      occursIn a s = true := by
  intro b
  induction b with
  | nil =>
    intro s hbs hab
    cases a with
    | nil => exact occursIn_nil s
    | cons a0 at0 => simp [occursIn, startsWithStr] at hab
  | cons b0 bt ih =>
    intro s hbs hab
    cases s with
    | nil => simp [startsWithStr] at hbs
    | cons s0 st =>
      simp [startsWithStr] at hbs
      simp [occursIn] at hab
      rcases hab with h1 | h2
      · have hb : startsWithStr (b0 :: bt) (s0 :: st) = true := by
          simp [startsWithStr, hbs.1, hbs.2]
        have := startsWithStr_trans _ _ _ h1 hb
        simp [occursIn, this]
      · have := ih st hbs.2 h2
        simp [occursIn, this]

lemma occursIn_trans (a b : PyStr) :
    ∀ c : PyStr, occursIn a b = true → occursIn b c = true →
      occursIn a c = true := by
  intro c
  induction c with
  | nil =>
    intro hab hbc
    cases b with
    | nil => exact hab
    | cons b0 bt => simp [occursIn, startsWithStr] at hbc
  | cons c0 ct ih =>
    intro hab hbc
    simp [occursIn] at hbc
    rcases hbc with h1 | h2
    · exact startsWith_propagate a b _ h1 hab
    · have := ih hab h2
      simp [occursIn, this]

/-- C5 (corrected).  `clean_gender` checks the branches in this source order:
first `"Male"` when the cleaned text contains `"male"` but not `"female"`;
then `"Female"` when it contains `"female"` or `"femal"`; then the exact
matches `m`/`man` and `f`/`woman`; then pass-through of non-empty cleaned
text and `None` for empty.  The claim's female-first ordering disagrees on
texts containing both `"male"` and `"femal"` without `"female"`. -/
theorem clean_gender_branch_order (text : PyStr) :
    (occursIn (str "male") (genderClean text) = true ∧
        occursIn (str "female") (genderClean text) = false →
      clean_gender text = some (str "Male")) ∧
    (occursIn (str "female") (genderClean text) = true →
      clean_gender text = some (str "Female")) ∧
    (occursIn (str "male") (genderClean text) = false ∧
        occursIn (str "femal") (genderClean text) = true →
      clean_gender text = some (str "Female")) ∧
    (genderClean text = str "m" ∨ genderClean text = str "man" →
      clean_gender text = some (str "Male")) ∧
    (genderClean text = str "f" ∨ genderClean text = str "woman" →
      clean_gender text = some (str "Female")) ∧
    (occursIn (str "male") (genderClean text) = false →
      occursIn (str "femal") (genderClean text) = false →
      ¬(genderClean text = str "m" ∨ genderClean text = str "man") →
      ¬(genderClean text = str "f" ∨ genderClean text = str "woman") →
      genderClean text ≠ [] → clean_gender text = some (genderClean text)) ∧
    (genderClean text = [] → clean_gender text = none) := by
  refine ⟨fun h => ?_, fun hf => ?_, fun h => ?_, fun h => ?_, fun h => ?_,
    fun hm hfl hm1 hm2 hne => ?_, fun h => ?_⟩
  · simp [clean_gender, h.1, h.2]
  · simp [clean_gender, hf]
  · have hf : occursIn (str "female") (genderClean text) = false := by
      cases h' : occursIn (str "female") (genderClean text)
      · rfl
      · exact absurd (occursIn_trans (str "male") (str "female") _ (by decide) h')
          (by simp [h.1])
    simp [clean_gender, h.1, h.2, hf]
  · rcases h with h | h <;> simp only [clean_gender, h] <;> decide
  · rcases h with h | h <;> simp only [clean_gender, h] <;> decide
  · have hf : occursIn (str "female") (genderClean text) = false := by
      cases h' : occursIn (str "female") (genderClean text)
      · rfl
      · exact absurd (occursIn_trans (str "femal") (str "female") _ (by decide) h')
          (by simp [hfl])
    push_neg at hm1 hm2
    simp [clean_gender, hm, hf, hfl, hm1.1, hm1.2, hm2.1, hm2.2, hne]
  · simp only [clean_gender, h]
    decide

/-- Witness for `clean_gender_branch_order` at concrete inputs. -/
theorem clean_gender_branch_order_witness :
    clean_gender (str " FEMALE ") = some (str "Female") ∧
    clean_gender (str "M") = some (str "Male") ∧
    clean_gender (str "xyz") = some (genderClean (str "xyz")) :=
  ⟨(clean_gender_branch_order (str " FEMALE ")).2.1 (by decide),
   (clean_gender_branch_order (str "M")).2.2.2.1 (by decide),
   (clean_gender_branch_order (str "xyz")).2.2.2.2.2.1 (by decide) (by decide)
     (by decide) (by decide) (by decide)⟩

/-- C5 counterexample: the cleaned text of `"male femal"` contains `"femal"`,
so the claim requires `"Female"`, but `clean_gender` tests its `"male"`
branch first and returns `"Male"`. -/
theorem clean_gender_order_counterexample :
    occursIn (str "femal") (genderClean (str "male femal")) = true ∧
    clean_gender (str "male femal") = some (str "Male") ∧
    some (str "Male") ≠ some (str "Female") := by decide

lemma head?_dropWhile_not (p : Nat → Bool) :
    ∀ (l : PyStr) (c : Nat), (l.dropWhile p).head? = some c → p c = false := by
  intro l
  induction l with
  | nil => intro c h; simp at h
  | cons a t ih =>
    intro c h
    by_cases hpa : p a = true
    · rw [List.dropWhile_cons_of_pos hpa] at h
      exact ih c h
    · rw [List.dropWhile_cons_of_neg hpa] at h
      simp at h
      subst h
      exact Bool.eq_false_iff.mpr hpa
  
lemma dropWhile_eq_self_of_head (p : Nat → Bool) (l : PyStr)
    (h : ∀ c, l.head? = some c → p c = false) : l.dropWhile p = l := by
  cases l with
  | nil => rfl
  | cons a t => rw [List.dropWhile_cons_of_neg (by simp [h a rfl])]

lemma dropWhile_idem (p : Nat → Bool) (l : PyStr) :
    (l.dropWhile p).dropWhile p = l.dropWhile p :=
  dropWhile_eq_self_of_head p _ (head?_dropWhile_not p l)

lemma revDropRev_prefixOf (p : Nat → Bool) (l : PyStr) :
    (l.reverse.dropWhile p).reverse <+: l := by
  have h := List.dropWhile_suffix (l := l.reverse) p
  have := List.reverse_prefix.mpr h
  rwa [List.reverse_reverse] at this

lemma head?_of_prefixOf (l₁ l₂ : PyStr) (h : l₁ <+: l₂) (hne : l₁ ≠ []) :
    l₂.head? = l₁.head? := by
  obtain ⟨t, rfl⟩ := h
  cases l₁ with
  | nil => exact absurd rfl hne
  | cons a t' => rfl

lemma dropWhile_revDropRev (p : Nat → Bool) (l : PyStr)
    (hl : l.dropWhile p = l) :
    ((l.reverse.dropWhile p).reverse).dropWhile p = (l.reverse.dropWhile p).reverse := by
  apply dropWhile_eq_self_of_head
  intro c hc
  have hne : (l.reverse.dropWhile p).reverse ≠ [] := by
    intro h0
    rw [h0] at hc
    simp at hc
  have hh := head?_of_prefixOf _ _ (revDropRev_prefixOf p l) hne
  apply head?_dropWhile_not p l c
  rw [hl, hh]
  exact hc

lemma pyStrip_idem (l : PyStr) : pyStrip (pyStrip l) = pyStrip l := by
  unfold pyStrip
  rw [dropWhile_revDropRev isSpaceCh (l.dropWhile isSpaceCh) (dropWhile_idem _ _)]
  rw [List.reverse_reverse, dropWhile_idem]

lemma isSpaceCh_toLowerCh (c : Nat) : isSpaceCh (toLowerCh c) = isSpaceCh c := by
  unfold isSpaceCh toLowerCh
  split
  · simp only [decide_eq_decide]
    omega
  · rfl

lemma dropWhile_map_toLower (l : PyStr) :
    (l.map toLowerCh).dropWhile isSpaceCh = (l.dropWhile isSpaceCh).map toLowerCh := by
  induction l with
  | nil => rfl
  | cons c t ih =>
    by_cases hc : isSpaceCh c = true
    · rw [List.map_cons, List.dropWhile_cons_of_pos (by rw [isSpaceCh_toLowerCh]; exact hc),
        List.dropWhile_cons_of_pos hc, ih]
    · rw [List.map_cons, List.dropWhile_cons_of_neg (by rw [isSpaceCh_toLowerCh]; exact hc),
        List.dropWhile_cons_of_neg hc, List.map_cons]

lemma pyStrip_map_toLower (l : PyStr) :
    pyStrip (l.map toLowerCh) = (pyStrip l).map toLowerCh := by
  unfold pyStrip
  rw [dropWhile_map_toLower, ← List.map_reverse, dropWhile_map_toLower, ← List.map_reverse]

lemma toLowerCh_idem (c : Nat) : toLowerCh (toLowerCh c) = toLowerCh c := by
  unfold toLowerCh
  split
  · split <;> omega
  · rfl

lemma isAlphaCh_or_isSpaceCh_toLowerCh (c : Nat)
    (h : (isAlphaCh c || isSpaceCh c) = true) :
    (isAlphaCh (toLowerCh c) || isSpaceCh (toLowerCh c)) = true := by
  rw [isAlphaCh_toLowerCh, isSpaceCh_toLowerCh]
  exact h

lemma mem_pyStrip (l : PyStr) (c : Nat) (hc : c ∈ pyStrip l) : c ∈ l := by
  unfold pyStrip at hc
  have h1 := (revDropRev_prefixOf isSpaceCh (l.dropWhile isSpaceCh)).sublist
  have h2 := (List.dropWhile_suffix (l := l) isSpaceCh).sublist
  exact h2.mem (h1.mem hc)

lemma genderClean_chars (s : PyStr) :
    ∀ c ∈ genderClean s, (isAlphaCh c || isSpaceCh c) = true := by
  intro c hc
  unfold genderClean at hc
  obtain ⟨c', hc', rfl⟩ := List.mem_map.mp hc
  have h2 := (List.mem_filter.mp (mem_pyStrip _ _ hc')).2
  exact isAlphaCh_or_isSpaceCh_toLowerCh c' (by simpa using h2)

lemma genderClean_idem (s : PyStr) : genderClean (genderClean s) = genderClean s := by
  have hfix : (genderClean s).filter (fun c => isAlphaCh c || isSpaceCh c) = genderClean s :=
    List.filter_eq_self.mpr (genderClean_chars s)
  have step1 : genderClean (genderClean s) = (pyStrip (genderClean s)).map toLowerCh := by
    conv_lhs => rw [genderClean]
    rw [hfix]
  rw [step1]
  conv_lhs => rw [genderClean]
  rw [pyStrip_map_toLower, pyStrip_idem, List.map_map]
  conv_rhs => rw [genderClean]
  exact List.map_congr_left fun c _ => toLowerCh_idem c

lemma clean_aadhaar_eq12 (t : PyStr) (h : (t.filter isDigitCh).length = 12) :
    clean_aadhaar_number t = fmtAadhaar (t.filter isDigitCh) := by
  unfold clean_aadhaar_number
  rw [if_pos h]

lemma clean_aadhaar_gt12 (t : PyStr) (h : (t.filter isDigitCh).length > 12) :
    clean_aadhaar_number t = fmtAadhaar ((t.filter isDigitCh).take 12) := by
  unfold clean_aadhaar_number
  rw [if_neg (by omega), if_pos h]

/-- C9 (corrected).  `clean_aadhaar_number` is idempotent on every input, and
`clean_gender` is idempotent on its own string output; `clean_name` is not
idempotent (the claim fails for it), because stripping a trailing
punctuation-only token can leave a trailing space that a second pass
removes. -/
theorem aadhaar_gender_idempotent :
    (∀ s : PyStr, clean_aadhaar_number (clean_aadhaar_number s) = clean_aadhaar_number s) ∧
    (∀ s t : PyStr, clean_gender s = some t → clean_gender t = some t) := by
  constructor
  · intro s
    rcases lt_trichotomy ((s.filter isDigitCh).length) 12 with h | h | h
    · have he : clean_aadhaar_number s = s := by
        unfold clean_aadhaar_number
        rw [if_neg (by omega), if_neg (by omega)]
      rw [he, he]
    · have he := clean_aadhaar_eq12 s h
      have hf : (clean_aadhaar_number s).filter isDigitCh = s.filter isDigitCh := by
        rw [he, filter_fmtAadhaar _ (digits_of_filter s), List.take_of_length_le (by omega)]
      rw [clean_aadhaar_eq12 _ (by rw [hf]; exact h), hf, ← he]
    · have he := clean_aadhaar_gt12 s h
      have hf : (clean_aadhaar_number s).filter isDigitCh = (s.filter isDigitCh).take 12 := by
        rw [he, filter_fmtAadhaar _ (fun c hc =>
          digits_of_filter s c ((List.take_sublist 12 _).mem hc))]
        simp [List.take_take]
      have hlen : ((clean_aadhaar_number s).filter isDigitCh).length = 12 := by
        rw [hf, List.length_take]
        omega
      rw [clean_aadhaar_eq12 _ hlen, hf, ← he]
  · intro s t h
    simp only [clean_gender] at h
    by_cases h1 : (occursIn (str "male") (genderClean s) &&
        !occursIn (str "female") (genderClean s)) = true
    · rw [if_pos h1] at h
      have ht : t = str "Male" := by
        simpa using h.symm
      subst ht
      decide
    · rw [if_neg h1] at h
      by_cases h2 : (occursIn (str "female") (genderClean s) ||
          occursIn (str "femal") (genderClean s)) = true
      · rw [if_pos h2] at h
        have ht : t = str "Female" := by
          simpa using h.symm
        subst ht
        decide
      · rw [if_neg h2] at h
        by_cases h3 : genderClean s = str "m" ∨ genderClean s = str "man"
        · rw [if_pos h3] at h
          have ht : t = str "Male" := by
            simpa using h.symm
          subst ht
          decide
        · rw [if_neg h3] at h
          by_cases h4 : genderClean s = str "f" ∨ genderClean s = str "woman"
          · rw [if_pos h4] at h
            have ht : t = str "Female" := by
              simpa using h.symm
            subst ht
            decide
          · rw [if_neg h4] at h
            by_cases h5 : genderClean s ≠ []
            · rw [if_pos h5] at h
              have ht : t = genderClean s := by
                simpa using h.symm
              subst ht
              have hidem := genderClean_idem s
              simp only [clean_gender, hidem]
              simp only [Bool.and_eq_true, Bool.or_eq_true, Bool.not_eq_true'] at h1 h2
              push_neg at h2
              have hm : occursIn (str "male") (genderClean s) = false := by
                cases hm' : occursIn (str "male") (genderClean s)
                · rfl
                · exact absurd (by simp [hm', h2.1]) h1
              rw [if_neg (by simp [hm]), if_neg (by simp [h2.1, h2.2]),
                if_neg h3, if_neg h4, if_pos h5]
            · rw [if_neg h5] at h
              simp at h

/-- Witness for `aadhaar_gender_idempotent`: the gender half applied at a
concrete input-output pair. -/
theorem aadhaar_gender_idempotent_witness :
    clean_gender (str "Female") = some (str "Female") :=
  aadhaar_gender_idempotent.2 (str "F") (str "Female") (by decide)

/-- C9 counterexample: `clean_name` is not idempotent: cleaning `"a -"`
strips the trailing hyphen but keeps the space before it, producing `"A "`;
a second application yields `"A"`. -/
theorem clean_name_not_idempotent :
    clean_name (str "a -") = str "A " ∧
    clean_name (clean_name (str "a -")) = str "A" ∧
    clean_name (clean_name (str "a -")) ≠ clean_name (str "a -") := by decide

lemma startsWithStr_of_matchFullAt (s m : PyStr) (h : matchFullAt s = some m) :
    startsWithStr m s = true := by
  unfold matchFullAt at h
  split at h
  · split at h
    · rw [Option.some_inj] at h
      subst h
      simp [startsWithStr]
    · exact absurd h (by simp)
  · exact absurd h (by simp)

lemma startsWithStr_of_matchShortAt (s m : PyStr) (h : matchShortAt s = some m) :
    startsWithStr m s = true := by
  unfold matchShortAt at h
  split at h
  · split at h
    · rw [Option.some_inj] at h
      subst h
      simp [startsWithStr]
    · exact absurd h (by simp)
  · exact absurd h (by simp)

lemma startsWithStr_of_matchYearAt (s m : PyStr) (h : matchYearAt s = some m) :
    startsWithStr m s = true := by
  unfold matchYearAt at h
  split at h
  · split at h
    · rw [Option.some_inj] at h
      subst h
      simp [startsWithStr]
    · exact absurd h (by simp)
  · exact absurd h (by simp)

lemma reSearch_exists (mf : PyStr → Option PyStr) :
    ∀ l m, reSearch mf l = some m → ∃ s, mf s = some m := by
  intro l
  induction l with
  | nil =>
    intro m h
    unfold reSearch at h
    exact ⟨[], h⟩
  | cons c t ih =>
    intro m h
    unfold reSearch at h
    cases hmc : mf (c :: t) with
    | some r =>
      simp only [hmc] at h
      exact ⟨c :: t, by rw [hmc]; exact h⟩
    | none =>
      simp only [hmc] at h
      exact ih m h

lemma reSearch_occursIn (mf : PyStr → Option PyStr)
    (hm : ∀ s r, mf s = some r → startsWithStr r s = true) :
    ∀ l m, reSearch mf l = some m → occursIn m l = true := by
  intro l
  induction l with
  | nil =>
    intro m h
    unfold reSearch at h
    exact occursIn_of_startsWith _ _ (hm _ _ h)
  | cons c t ih =>
    intro m h
    unfold reSearch at h
    cases hmc : mf (c :: t) with
    | some r =>
      simp only [hmc] at h
      rw [Option.some_inj] at h
      subst h
      exact occursIn_of_startsWith _ _ (hm _ _ hmc)
    | none =>
      simp only [hmc] at h
      have := ih m h
      simp [occursIn, this]

lemma slashify_digits (m : PyStr) : (slashify m).filter isDigitCh = m.filter isDigitCh := by
  induction m with
  | nil => rfl
  | cons c t ih =>
    simp only [slashify] at ih ⊢
    rw [List.map_cons, List.filter_cons, List.filter_cons]
    by_cases h : c = 45
    · subst h
      rw [show (if ((45 : Nat) == 45) = true then (47 : Nat) else 45) = 47 from by decide]
      rw [if_neg (show ¬(isDigitCh 47 = true) from by decide),
        if_neg (show ¬(isDigitCh 45 = true) from by decide)]
      exact ih
    · rw [show (if (c == 45) = true then 47 else c) = c from by
        rw [if_neg (show ¬((c == 45) = true) from by simpa using h)]]
      by_cases hd : isDigitCh c = true
      · rw [if_pos hd, if_pos hd, ih]
      · rw [if_neg hd, if_neg hd, ih]

lemma matchYearAt_slashify (s m : PyStr) (h : matchYearAt s = some m) :
    slashify m = m := by
  unfold matchYearAt at h
  split at h
  · split at h
    · rename_i hcond
      rw [Option.some_inj] at h
      subst h
      simp only [Bool.and_eq_true] at hcond
      obtain ⟨⟨⟨ha, hb⟩, hc⟩, hd⟩ := hcond
      unfold isDigitCh at ha hb hc hd
      rw [decide_eq_true_eq] at ha hb hc hd
      simp [slashify]
      exact ⟨fun hx => absurd hx (by omega), fun hx => absurd hx (by omega),
        fun hx => absurd hx (by omega), fun hx => absurd hx (by omega)⟩
    · exact absurd h (by simp)
  · exact absurd h (by simp)

/-- C7 (confirmed).  `clean_date` returns `None` on empty input or when the
kept digit/separator characters are empty; otherwise it searches, in order,
the full date pattern, the short date pattern, and the bare 4-digit year, and
on a match returns the leftmost matched substring (an infix of the cleaned
text) with `-` separators replaced by `/` and its digits unchanged; when no
pattern matches it returns the cleaned string as-is. -/
theorem clean_date_pattern_order (text m : PyStr) :
    (text = [] → clean_date text = none) ∧
    (text.filter isDateCh = [] → clean_date text = none) ∧
    (reSearch matchFullAt (text.filter isDateCh) = some m →
      clean_date text = some (slashify m) ∧
      occursIn m (text.filter isDateCh) = true ∧
      (slashify m).filter isDigitCh = m.filter isDigitCh) ∧
    (reSearch matchFullAt (text.filter isDateCh) = none →
      reSearch matchShortAt (text.filter isDateCh) = some m →
      clean_date text = some (slashify m) ∧
      occursIn m (text.filter isDateCh) = true ∧
      (slashify m).filter isDigitCh = m.filter isDigitCh) ∧
    (reSearch matchFullAt (text.filter isDateCh) = none →
      reSearch matchShortAt (text.filter isDateCh) = none →
      reSearch matchYearAt (text.filter isDateCh) = some m →
      clean_date text = some m ∧
      occursIn m (text.filter isDateCh) = true) ∧
    (reSearch matchFullAt (text.filter isDateCh) = none →
      reSearch matchShortAt (text.filter isDateCh) = none →
      reSearch matchYearAt (text.filter isDateCh) = none →
      text.filter isDateCh ≠ [] →
      clean_date text = some (text.filter isDateCh)) := by
  have hne_of_search : ∀ mf : PyStr → Option PyStr,
      reSearch mf (text.filter isDateCh) = some m → mf [] = none → text ≠ [] := by
    intro mf hs hmf h0
    rw [h0] at hs
    simp only [List.filter_nil] at hs
    unfold reSearch at hs
    rw [hmf] at hs
    exact absurd hs (by simp)
  refine ⟨fun h => ?_, fun h => ?_, fun h => ?_, fun h1 h2 => ?_,
    fun h1 h2 h3 => ?_, fun h1 h2 h3 h4 => ?_⟩
  · unfold clean_date
    rw [if_pos h]
  · by_cases ht : text = []
    · unfold clean_date
      rw [if_pos ht]
    · simp only [clean_date]
      rw [if_neg ht, h]
      decide
  · have ht : text ≠ [] := hne_of_search matchFullAt h rfl
    refine ⟨?_, reSearch_occursIn matchFullAt startsWithStr_of_matchFullAt _ _ h,
      slashify_digits m⟩
    simp only [clean_date]
    rw [if_neg ht]
    simp only [h]
  · have ht : text ≠ [] := hne_of_search matchShortAt h2 rfl
    refine ⟨?_, reSearch_occursIn matchShortAt startsWithStr_of_matchShortAt _ _ h2,
      slashify_digits m⟩
    simp only [clean_date]
    rw [if_neg ht]
    simp only [h1, h2]
  · have ht : text ≠ [] := hne_of_search matchYearAt h3 rfl
    obtain ⟨s', hs'⟩ := reSearch_exists matchYearAt _ m h3
    refine ⟨?_, reSearch_occursIn matchYearAt startsWithStr_of_matchYearAt _ _ h3⟩
    simp only [clean_date]
    rw [if_neg ht]
    simp only [h1, h2, h3]
    rw [matchYearAt_slashify s' m hs']
  · have ht : text ≠ [] := by
      intro h0
      rw [h0] at h4
      exact h4 rfl
    simp only [clean_date]
    rw [if_neg ht]
    simp only [h1, h2, h3]
    rw [if_neg h4]

/-- Witness for `clean_date_pattern_order` at concrete inputs exercising the
full-date branch and the fallback branch. -/
theorem clean_date_pattern_order_witness :
    clean_date (str "01-02-1990") = some (str "01/02/1990") ∧
    clean_date (str "1/2/3") = some (str "1/2/3") := by
  constructor
  · have h := ((clean_date_pattern_order (str "01-02-1990") (str "01-02-1990")).2.2.1
      (by decide)).1
    rw [h]
    decide
  · have h := (clean_date_pattern_order (str "1/2/3") []).2.2.2.2.2
      (by decide) (by decide) (by decide) (by decide)
    rw [h]
    decide

lemma any_key_of_mem {α : Type} (d : List (String × α)) (k : String)
    (h : k ∈ d.map Prod.fst) : (d.any fun p => p.1 == k) = true := by
  rw [List.any_eq_true]
  obtain ⟨p, hp, he⟩ := List.mem_map.mp h
  exact ⟨p, hp, by simp [he]⟩

lemma dictSet_keys {α : Type} (d : List (String × α)) (k : String) (v : α)
    (h : (d.any fun p => p.1 == k) = true) :
    (dictSet d k v).map Prod.fst = d.map Prod.fst := by
  unfold dictSet
  rw [if_pos h, List.map_map]
  apply List.map_congr_left
  intro p hp
  by_cases hk : (p.1 == k) = true
  · have hpk : p.1 = k := by simpa using hk
    simp [Function.comp, hk, hpk]
  · simp [Function.comp, hk]

lemma postStep_keys (acc : List (String × Option PyStr)) (kv : String × PyStr)
    (h : acc.map Prod.fst = emptyFieldMap.map Prod.fst) :
    (postStep acc kv).map Prod.fst = emptyFieldMap.map Prod.fst := by
  have hset : ∀ k : String, k ∈ emptyFieldMap.map Prod.fst → ∀ v : Option PyStr,
      (dictSet acc k v).map Prod.fst = acc.map Prod.fst := by
    intro k hk v
    exact dictSet_keys _ _ _ (any_key_of_mem _ _ (by rw [h]; exact hk))
  unfold postStep
  by_cases h0 : kv.2 = []
  · rw [if_pos h0]
    exact h
  · rw [if_neg h0]
    split_ifs with h1 h2 h3 h4
    · have hk : kv.1 = "AADHAR_NUMBER" := by simpa using h1
      rw [hk, hset _ (by decide) _]
      exact h
    · have hk : kv.1 = "DOB" := by simpa using h2
      rw [hk, hset _ (by decide) _]
      exact h
    · have hk : kv.1 = "GENDER" := by simpa using h3
      rw [hk, hset _ (by decide) _]
      exact h
    · have hk : kv.1 = "NAME" := by simpa using h4
      rw [hk, hset _ (by decide) _]
      exact h
    · exact h

lemma foldl_postStep_keys (data : List (String × PyStr)) :
    ∀ acc, acc.map Prod.fst = emptyFieldMap.map Prod.fst →
      (data.foldl postStep acc).map Prod.fst = emptyFieldMap.map Prod.fst := by
  induction data with
  | nil =>
    intro acc h
    simpa using h
  | cons kv rest ih =>
    intro acc h
    rw [List.foldl_cons]
    exact ih _ (postStep_keys acc kv h)

lemma buildStep_skip (acc : List (String × PyStr)) (d : Det)
    (h : (REQUIRED_FIELDS.contains d.label && textTruthy d.text) = false) :
    buildStep acc d = acc := by
  unfold buildStep
  by_cases hc : REQUIRED_FIELDS.contains d.label = true
  · rw [if_pos hc]
    have ht : textTruthy d.text = false := by
      cases hx : textTruthy d.text
      · rfl
      · rw [hc, hx] at h
        simp at h
    cases hd : d.text with
    | none => rfl
    | some t =>
      rw [hd] at ht
      unfold textTruthy at ht
      rw [Bool.not_eq_false'] at ht
      show (if t.isEmpty = true then acc else dictSet acc (fieldName d.label) t) = acc
      rw [if_pos ht]
  · rw [if_neg hc]

lemma build_nil_of_skip : ∀ dets : List Det,
    (∀ d ∈ dets, (REQUIRED_FIELDS.contains d.label && textTruthy d.text) = false) →
    buildExtractedData dets = [] := by
  intro dets
  unfold buildExtractedData
  induction dets with
  | nil => intro _; rfl
  | cons d rest ih =>
    intro h
    rw [List.foldl_cons, buildStep_skip _ _ (h d (by simp))]
    exact ih fun d' hd' => h d' (by simp [hd'])

/-- C2 (confirmed).  The canonical field map produced by the extraction
pipeline always has exactly the four keys `AADHAR_NUMBER`, `NAME`, `DOB`,
`GENDER` in this order, each bound to an optional string; with no detections,
or with no detection carrying a required label and truthy text, the result is
the fully-keyed all-`None` map, not an error. -/
theorem extract_always_four_keys (dets : List Det) :
    (extract_aadhaar_data dets).map Prod.fst = ["AADHAR_NUMBER", "NAME", "DOB", "GENDER"] ∧
    extract_aadhaar_data [] = emptyFieldMap ∧
    ((∀ d ∈ dets, (REQUIRED_FIELDS.contains d.label && textTruthy d.text) = false) →
      extract_aadhaar_data dets = emptyFieldMap) := by
  refine ⟨?_, rfl, fun h => ?_⟩
  · exact foldl_postStep_keys (buildExtractedData dets) emptyFieldMap rfl
  · unfold extract_aadhaar_data
    rw [build_nil_of_skip dets h]
    rfl

/-- Witness for `extract_always_four_keys`: a list whose detections all fail
to qualify (foreign label, empty text, missing text) still yields the
all-`None` four-key map. -/
theorem extract_always_four_keys_witness :
    extract_aadhaar_data
      [⟨"PHOTO", some (str "x")⟩, ⟨"NAME", some []⟩, ⟨"GENDER", none⟩] = emptyFieldMap :=
  (extract_always_four_keys _).2.2 (by
    intro d hd
    simp only [List.mem_cons, List.mem_singleton] at hd
    rcases hd with rfl | rfl | rfl | h
    · decide
    · decide
    · decide
    · simp at h)

lemma find?_map_update {α : Type} (k : String) (v : α) :
    ∀ d : List (String × α), (d.any fun p => p.1 == k) = true →
      ((d.map fun p => if p.1 == k then (k, v) else p).find? fun p => p.1 == k) =
        some (k, v) := by
  intro d
  induction d with
  | nil =>
    intro h
    simp at h
  | cons p rest ih =>
    intro h
    rw [List.map_cons]
    by_cases hp : (p.1 == k) = true
    · rw [if_pos hp]
      rw [List.find?_cons_of_pos (p := fun q : String × α => q.1 == k) _ (by simp)]
    · rw [if_neg hp]
      rw [List.find?_cons_of_neg (p := fun q : String × α => q.1 == k) _ hp]
      apply ih
      simp only [List.any_cons, hp, Bool.false_or] at h
      exact h

lemma dictGet_dictSet_self {α : Type} (d : List (String × α)) (k : String) (v : α) :
    dictGet (dictSet d k v) k = some v := by
  unfold dictSet dictGet
  by_cases h : (d.any fun p => p.1 == k) = true
  · rw [if_pos h, find?_map_update k v d h]
    rfl
  · rw [if_neg h, List.find?_append]
    have hnone : (d.find? fun p => p.1 == k) = none := by
      rw [List.find?_eq_none]
      intro p hp hc
      exact h (List.any_eq_true.mpr ⟨p, hp, hc⟩)
    rw [hnone]
    rw [List.find?_cons_of_pos (p := fun q : String × α => q.1 == k) _ (by simp)]
    rfl

lemma find?_map_update_ne {α : Type} (k k' : String) (v : α) (hkk : k' ≠ k) :
    ∀ d : List (String × α),
      ((d.map fun p => if p.1 == k then (k, v) else p).find? fun p => p.1 == k') =
        d.find? fun p => p.1 == k' := by
  intro d
  induction d with
  | nil => rfl
  | cons p rest ih =>
    rw [List.map_cons]
    by_cases hp : (p.1 == k) = true
    · rw [if_pos hp]
      have hpk : p.1 = k := by simpa using hp
      have h1 : ¬(((k, v).1 == k') = true) := by
        simp
        exact fun he => hkk he.symm
      have h2 : ¬((p.1 == k') = true) := by
        rw [hpk]
        simp
        exact fun he => hkk he.symm
      rw [List.find?_cons_of_neg (p := fun q : String × α => q.1 == k') _ h1,
        List.find?_cons_of_neg (p := fun q : String × α => q.1 == k') _ h2]
      exact ih
    · rw [if_neg hp]
      by_cases hq : (p.1 == k') = true
      · rw [List.find?_cons_of_pos (p := fun q : String × α => q.1 == k') _ hq,
          List.find?_cons_of_pos (p := fun q : String × α => q.1 == k') _ hq]
      · rw [List.find?_cons_of_neg (p := fun q : String × α => q.1 == k') _ hq,
          List.find?_cons_of_neg (p := fun q : String × α => q.1 == k') _ hq]
        exact ih

lemma dictGet_dictSet_ne {α : Type} (d : List (String × α)) (k k' : String) (v : α)
    (hkk : k' ≠ k) : dictGet (dictSet d k v) k' = dictGet d k' := by
  unfold dictSet dictGet
  by_cases h : (d.any fun p => p.1 == k) = true
  · rw [if_pos h, find?_map_update_ne k k' v hkk d]
  · rw [if_neg h, List.find?_append]
    have h1 : (([(k, v)] : List (String × α)).find? fun p => p.1 == k') = none := by
      rw [List.find?_eq_none]
      intro p hp hc
      simp at hp
      rw [hp] at hc
      simp at hc
      exact hkk hc.symm
    rw [h1]
    cases d.find? fun p => p.1 == k' <;> rfl

lemma fieldName_inj_on (a b : String) (ha : a ∈ REQUIRED_FIELDS)
    (hb : b ∈ REQUIRED_FIELDS) (hab : a ≠ b) : fieldName a ≠ fieldName b := by
  fin_cases ha <;> fin_cases hb <;> first
    | exact absurd rfl hab
    | decide

lemma lastQual_append (l : String) (dets : List Det) (d : Det) :
    lastQual l (dets ++ [d]) =
      if (d.label == l && textTruthy d.text) = true then d.text
      else lastQual l dets := by
  unfold lastQual
  rw [List.filterMap_append]
  by_cases h : (d.label == l && textTruthy d.text) = true
  · rw [if_pos h]
    cases hd : d.text with
    | none =>
      rw [hd] at h
      simp [textTruthy] at h
    | some t =>
      have hsingle : List.filterMap
          (fun x : Det => if x.label == l && textTruthy x.text then x.text else none) [d] =
          [t] := by
        simp only [List.filterMap_cons, List.filterMap_nil]
        rw [if_pos h, hd]
      rw [hsingle]
      simp
  · rw [if_neg h]
    have hsingle : List.filterMap
        (fun x : Det => if x.label == l && textTruthy x.text then x.text else none) [d] =
        [] := by
      simp only [List.filterMap_cons, List.filterMap_nil]
      rw [if_neg h]
    rw [hsingle, List.append_nil]

lemma build_lookup (l : String) (hl : l ∈ REQUIRED_FIELDS) :
    ∀ dets : List Det, dictGet (buildExtractedData dets) (fieldName l) = lastQual l dets := by
  intro dets
  induction dets using List.reverseRecOn with
  | nil => rfl
  | append_singleton ds d ih =>
    have hstep : buildExtractedData (ds ++ [d]) = buildStep (buildExtractedData ds) d := by
      unfold buildExtractedData
      rw [List.foldl_append]
      rfl
    rw [hstep, lastQual_append]
    by_cases hq : (d.label == l && textTruthy d.text) = true
    · rw [if_pos hq]
      simp only [Bool.and_eq_true, beq_iff_eq] at hq
      obtain ⟨hdl, htr⟩ := hq
      unfold buildStep
      have hcont : REQUIRED_FIELDS.contains d.label = true := by
        rw [hdl]
        exact List.elem_iff.mpr hl
      rw [if_pos hcont]
      cases hd : d.text with
      | none =>
        rw [hd] at htr
        simp [textTruthy] at htr
      | some t =>
        have htne : t.isEmpty = false := by
          rw [hd] at htr
          unfold textTruthy at htr
          rwa [Bool.not_eq_true'] at htr
        show dictGet (if t.isEmpty = true then buildExtractedData ds
          else dictSet (buildExtractedData ds) (fieldName d.label) t) (fieldName l) = some t
        rw [if_neg (by rw [htne]; exact Bool.false_ne_true), hdl, dictGet_dictSet_self]
    · rw [if_neg hq, ← ih]
      unfold buildStep
      by_cases hcont : REQUIRED_FIELDS.contains d.label = true
      · rw [if_pos hcont]
        cases hd : d.text with
        | none => rfl
        | some t =>
          by_cases hemp : t.isEmpty = true
          · show dictGet (if t.isEmpty = true then buildExtractedData ds
              else dictSet (buildExtractedData ds) (fieldName d.label) t) (fieldName l) =
              dictGet (buildExtractedData ds) (fieldName l)
            rw [if_pos hemp]
          · show dictGet (if t.isEmpty = true then buildExtractedData ds
              else dictSet (buildExtractedData ds) (fieldName d.label) t) (fieldName l) =
              dictGet (buildExtractedData ds) (fieldName l)
            rw [if_neg hemp]
            have hne : d.label ≠ l := by
              intro he
              apply hq
              rw [he]
              simp only [beq_self_eq_true, Bool.true_and, textTruthy, hd]
              rw [Bool.not_eq_true']
              exact Bool.eq_false_iff.mpr hemp
            have hmem : d.label ∈ REQUIRED_FIELDS := List.elem_iff.mp hcont
            exact dictGet_dictSet_ne _ _ _ _
              (fieldName_inj_on l d.label hl hmem fun he => hne he.symm)
      · rw [if_neg hcont]

/-- C4 (confirmed).  In the extraction loop, when several detections carry
the same required label, the retained raw value is the text of the last
qualifying detection (required label and truthy extracted text) in detector
output order: the lookup of each field key in `extracted_data` equals the
last such text.  As a pure function of the detection list the selection is
deterministic. -/
theorem selector_last_seen_wins (dets : List Det) :
    dictGet (buildExtractedData dets) "AADHAR_NUMBER" = lastQual "AADHAR_NUMBER" dets ∧
    dictGet (buildExtractedData dets) "NAME" = lastQual "NAME" dets ∧
    dictGet (buildExtractedData dets) "DOB" = lastQual "DATE_OF_BIRTH" dets ∧
    dictGet (buildExtractedData dets) "GENDER" = lastQual "GENDER" dets := by
  refine ⟨?_, ?_, ?_, ?_⟩
  · have h := build_lookup "AADHAR_NUMBER" (by decide) dets
    rwa [show fieldName "AADHAR_NUMBER" = "AADHAR_NUMBER" from by decide] at h
  · have h := build_lookup "NAME" (by decide) dets
    rwa [show fieldName "NAME" = "NAME" from by decide] at h
  · have h := build_lookup "DATE_OF_BIRTH" (by decide) dets
    rwa [show fieldName "DATE_OF_BIRTH" = "DOB" from by decide] at h
  · have h := build_lookup "GENDER" (by decide) dets
    rwa [show fieldName "GENDER" = "GENDER" from by decide] at h

/-- C3 (corrected).  `extract_text_from_region` clamps the box and never
raises, but when the clamped region has zero area (including a box entirely
outside the image) it returns the empty string `""`, not `None`; an exception
from the OCR collaborator is caught and also surfaces as the empty string
`""`; only whitespace-free empty OCR output yields `None`.  Both `""` and
`None` are falsy, so the field surfaces as missing without aborting the
other fields. -/
theorem extract_text_failure_semantics (h w : Nat) (x1 y1 x2 y2 : Int)
    (ocr : Except Unit PyStr) :
    (min (h : Int) y2 - max 0 y1 ≤ 0 ∨ min (w : Int) x2 - max 0 x1 ≤ 0 →
      extract_text_from_region h w x1 y1 x2 y2 ocr = some []) ∧
    (∀ e : Unit, ocr = Except.error e →
      extract_text_from_region h w x1 y1 x2 y2 ocr = some []) ∧
    (∀ raw : PyStr, ocr = Except.ok raw →
      ¬(min (h : Int) y2 - max 0 y1 ≤ 0 ∨ min (w : Int) x2 - max 0 x1 ≤ 0) →
      extract_text_from_region h w x1 y1 x2 y2 ocr =
        (if pyStrip (collapseAux false raw) = [] then none
         else some (pyStrip (collapseAux false raw)))) := by
  refine ⟨fun hz => ?_, fun e he => ?_, fun raw hr hnz => ?_⟩
  · simp only [extract_text_from_region]
    rw [if_pos hz]
  · subst he
    simp only [extract_text_from_region]
    by_cases hz : min (h : Int) y2 - max 0 y1 ≤ 0 ∨ min (w : Int) x2 - max 0 x1 ≤ 0
    · rw [if_pos hz]
    · rw [if_neg hz]
  · subst hr
    simp only [extract_text_from_region]
    rw [if_neg hnz]

/-- Witness for `extract_text_failure_semantics`: a box entirely outside a
10x10 image, an OCR engine failure, and a successful OCR call. -/
theorem extract_text_failure_semantics_witness :
    extract_text_from_region 10 10 20 20 30 30 (Except.ok (str "ignored")) = some [] ∧
    extract_text_from_region 10 10 0 0 5 5 (Except.error ()) = some [] ∧
    extract_text_from_region 10 10 0 0 5 5 (Except.ok (str " a  b ")) = some (str "a b") := by
  refine ⟨?_, ?_, ?_⟩
  · exact (extract_text_failure_semantics 10 10 20 20 30 30 _).1 (by decide)
  · exact (extract_text_failure_semantics 10 10 0 0 5 5 _).2.1 () rfl
  · have hok := (extract_text_failure_semantics 10 10 0 0 5 5 _).2.2 (str " a  b ") rfl
      (by decide)
    rw [hok]
    decide

/-- C3 counterexample: for a bounding box entirely outside a 10x10 image the
function returns the empty string `some []`, and it does the same when the
OCR collaborator raises — in both situations the claim requires `None`. -/
theorem extract_text_zero_area_counterexample :
    extract_text_from_region 10 10 20 20 30 30 (Except.ok (str "x")) = some [] ∧
    extract_text_from_region 10 10 0 0 5 5 (Except.error ()) = some [] ∧
    (some ([] : PyStr) ≠ (none : Option PyStr)) := by decide
